import Mathlib

/-!
# Renvo agent-service: shallow embedding and verification

This file embeds the deterministic core of the Renvo property-analysis
backend (`backend/agent_service`) in Lean 4 and proves properties of it:

* the loosely-typed value parsers (`safe_parse_int`, `safe_parse_float` of
  `agents/financial_agent.py`, `_parse_number` of `models/property_model.py`);
* the financial valuation waterfall (`FinancialAnalysisAgent`:
  `_determine_property_value`, `_recent_sale_within_year`,
  `_avg_ppsf_from_comps`, `_normalize_item`, `process`);
* the structured-output extraction layer (`_extract_json_list` of the
  financial agent, `_clean_json_string` and the parse path of
  `TextAnalysisAgent.process`), over an executable model of `json.loads`;
* the pipeline orchestration and job-status lifecycle
  (`OrchestratorAgent.generate_full_report`, `app.py`'s
  `run_orchestrator_in_background` / `analyze_property`, and
  `ReportService.generate_detailed_report_background` / `update_report`).

Numbers are modelled with `Int`/`ℚ` (Python ints are unbounded; Python float
arithmetic is modelled by exact rational arithmetic, which agrees with it on
every concrete value appearing below).  External generative calls are not
modelled: functions that consume an LLM response take that response as an
explicit argument, and stage invocations that may raise are modelled with
`Except`.
-/

namespace Renvo

/-- A loosely-typed Python value as it crosses the service boundary:
absent (`None`), an `int`, or a `str`.  Property records arrive from JSON
where every numeric-looking field may be a string with formatting noise. -/
inductive Py where
  | none : Py
  | int (n : Int) : Py
  | str (s : String) : Py
deriving DecidableEq, Repr

/-- Python truthiness for the values of `Py` (`None`, `0` and `""` are falsy). -/
def Py.truthy : Py → Bool
  | .none => false
  | .int n => n != 0
  | .str s => s != ""

/-- Python `a or b`: the first operand if truthy, otherwise the second. -/
def pyOr (a b : Py) : Py := if a.truthy then a else b

/-- Python `str(value)` for the values of `Py`. -/
def Py.toPyStr : Py → String
  | .none => "None"
  | .int n => toString n
  | .str s => s

/-! ### Rational arithmetic

The standard `ℚ` operations of this toolchain are `@[irreducible]`, which
blocks the kernel evaluation that the concrete theorems below rely on.  The
embedding therefore computes with the following wrappers, built on the
reducible primitives `Rat.divInt` and `Rat.floor`; each wrapper is proved
equal to the standard operation, and the theorems are stated with the
standard operations. -/

/-- Addition on `ℚ` through `Rat.divInt`. -/
def qAdd (a b : ℚ) : ℚ := Rat.divInt (a.num * b.den + b.num * a.den) (a.den * b.den)

/-- Multiplication on `ℚ` through `Rat.divInt`. -/
def qMul (a b : ℚ) : ℚ := Rat.divInt (a.num * b.num) (a.den * b.den)

/-- Division on `ℚ` through `Rat.divInt` (division by zero gives zero,
matching `Rat.div`; the embedding only ever divides under a positivity
guard, as the source does). -/
def qDiv (a b : ℚ) : ℚ := Rat.divInt (a.num * b.den) (a.den * b.num)

/-- Subtraction on `ℚ`. -/
def qSub (a b : ℚ) : ℚ := qAdd a (-b)

/-- The larger of two rationals (Python `max`). -/
def qMax (a b : ℚ) : ℚ := if a < b then b else a

/-- Natural powers on `ℚ`. -/
def qPow (a : ℚ) : Nat → ℚ
  | 0 => 1
  | n + 1 => qMul (qPow a n) a

/-- The larger of two integers (Python `max`). -/
def intMax (a b : Int) : Int := if a < b then b else a

/-- Numeric value of a list of decimal digits. -/
def digitsVal (cs : List Char) : Nat :=
  cs.foldl (fun a c => 10 * a + (c.toNat - '0'.toNat)) 0

/-- Python `int(s)` on a string containing only digits and `-`
(the alphabet left by `re.sub(r"[^\d\-]", "", ...)`): an optional single
leading sign followed by at least one digit; anything else raises. -/
def intLitOfChars : List Char → Option Int
  | '-' :: rest =>
      if rest ≠ [] ∧ rest.all Char.isDigit then some (-(digitsVal rest : Int)) else Option.none
  | cs =>
      if cs ≠ [] ∧ cs.all Char.isDigit then some (digitsVal cs : Int) else Option.none

/-- `re.sub(r"[^\d\-]", "", s)`: keep only digits and `-`. -/
def keepIntChars (s : String) : List Char :=
  s.data.filter (fun c => c.isDigit || c = '-')

/-- `safe_parse_int` (financial_agent.py): `None` maps to `0`; otherwise the
value is stringified, every character except digits and `-` is removed, and
the result is parsed with `int(...)`, any failure yielding `0`. -/
def safe_parse_int (value : Py) : Int :=
  match value with
  | .none => 0
  | v =>
      let cleaned := keepIntChars v.toPyStr
      if cleaned = [] then 0 else (intLitOfChars cleaned).getD 0

/-- Fractional value of the digits after a decimal point. -/
def fracVal (cs : List Char) : ℚ :=
  qDiv (digitsVal cs : ℚ) (qPow 10 cs.length)

/-- Split a character list at every occurrence of a separator (the
semantics of `str.split(sep)`). -/
def splitOnChar (sep : Char) : List Char → List (List Char)
  | [] => [[]]
  | c :: rest =>
      if c = sep then [] :: splitOnChar sep rest
      else
        match splitOnChar sep rest with
        | h :: t => (c :: h) :: t
        | [] => [[c]]

/-- Python `float(s)` body without sign: `d+`, `d+.d*`, `.d+` or `d+.`
(at least one digit, at most one dot). -/
def floatBodyOfChars (cs : List Char) : Option ℚ :=
  match splitOnChar '.' cs with
  | [as] =>
      if as ≠ [] ∧ as.all Char.isDigit then some (digitsVal as : ℚ) else Option.none
  | [as, bs] =>
      if (as ≠ [] ∨ bs ≠ []) ∧ as.all Char.isDigit ∧ bs.all Char.isDigit then
        some (qAdd (digitsVal as : ℚ) (fracVal bs))
      else Option.none
  | _ => Option.none

/-- Python `float(s)` on a string containing only digits, `.` and `-`
(the alphabet left by `re.sub(r"[^\d\.\-]", "", ...)`). -/
def floatLitOfChars : List Char → Option ℚ
  | '-' :: rest => (floatBodyOfChars rest).map Neg.neg
  | cs => floatBodyOfChars cs

/-- `re.sub(r"[^\d\.\-]", "", s)`: keep only digits, `.` and `-`. -/
def keepFloatChars (s : String) : List Char :=
  s.data.filter (fun c => c.isDigit || c = '.' || c = '-')

/-- `safe_parse_float` (financial_agent.py): `None` maps to `0.0`; otherwise
the value is stringified, every character except digits, `.` and `-` is
removed, and the result is parsed with `float(...)` unless it is one of the
explicitly excluded degenerate strings; any failure yields `0.0`. -/
def safe_parse_float (value : Py) : ℚ :=
  match value with
  | .none => 0
  | v =>
      let cleaned := keepFloatChars v.toPyStr
      if cleaned = [] ∨ cleaned = ['.'] ∨ cleaned = ['-'] ∨ cleaned = ['-', '.'] then 0
      else (floatLitOfChars cleaned).getD 0

/-! ## `_parse_number` (models/property_model.py)

`_parse_number` replaces every comma with a *space*, collects every match of
the regex `[-+]?[0-9]*\.?[0-9]+` in the result, and returns the largest
match as a float (`None` when there is no match).  The regex, with its
backtracking, matches exactly: an optional sign, then either `d+` optionally
followed by `.d+`, or `.d+`, greedily. -/

/-- One greedy match of `[0-9]*\.?[0-9]+` at the head of the input, returning
the value and the unconsumed rest. -/
def numTokenBody : List Char → Option (ℚ × List Char) :=
  fun cs =>
    let intPart := cs.span Char.isDigit
    if intPart.1 ≠ [] then
      match intPart.2 with
      | '.' :: r₂ =>
          let fracPart := r₂.span Char.isDigit
          if fracPart.1 ≠ [] then
            some (qAdd (digitsVal intPart.1 : ℚ) (fracVal fracPart.1), fracPart.2)
          else
            some ((digitsVal intPart.1 : ℚ), intPart.2)
      | _ => some ((digitsVal intPart.1 : ℚ), intPart.2)
    else
      match cs with
      | '.' :: r₂ =>
          let fracPart := r₂.span Char.isDigit
          if fracPart.1 ≠ [] then some (fracVal fracPart.1, fracPart.2) else Option.none
      | _ => Option.none

/-- One match of `[-+]?[0-9]*\.?[0-9]+` at the head of the input. -/
def numToken : List Char → Option (ℚ × List Char)
  | '-' :: rest => (numTokenBody rest).map (fun p => (-p.1, p.2))
  | '+' :: rest => numTokenBody rest
  | cs => numTokenBody cs

/-- `re.findall` for the number regex: scan left to right, collecting
non-overlapping matches (fuel is the remaining input length). -/
def findNumsAux : Nat → List Char → List ℚ
  | 0, _ => []
  | _, [] => []
  | fuel + 1, c :: t =>
      match numToken (c :: t) with
      | some (q, rest) => q :: findNumsAux fuel rest
      | Option.none => findNumsAux fuel t

/-- All regex number matches in a string, left to right. -/
def findNums (s : String) : List ℚ := findNumsAux s.length s.data

/-- `s.replace(",", " ")`: substitute a space for every comma. -/
def commaToSpace (s : String) : String :=
  String.mk (s.data.map fun c => if c = ',' then ' ' else c)

/-- `_parse_number` (property_model.py): `None` stays absent, numbers pass
through, and a string has its commas replaced by spaces before the number
regex is applied; the numerically largest token wins. -/
def pyParseNumber (val : Py) : Option ℚ :=
  match val with
  | .none => Option.none
  | .int n => some (n : ℚ)
  | .str s =>
      match findNums (commaToSpace s) with
      | [] => Option.none
      | q :: qs => some (qs.foldl qMax q)

/-! ## Python rounding -/

/-- Python `round(x)`: round half to even. -/
def pyRound (q : ℚ) : Int :=
  let f := q.floor
  let r := qSub q (f : ℚ)
  if r < mkRat 1 2 then f
  else if mkRat 1 2 < r then f + 1
  else if f % 2 = 0 then f else f + 1

/-- Python `round(x, n)`: round to `n` decimal places, half to even. -/
def pyRoundTo (n : Nat) (q : ℚ) : ℚ :=
  qDiv (pyRound (qMul q (qPow 10 n)) : ℚ) (qPow 10 n)

/-! ## Comparable properties and `_avg_ppsf_from_comps` -/

/-- A comparable-property record, restricted to the keys
`_avg_ppsf_from_comps` reads.  A missing key is `Py.none` (for the `or`
chains this is interchangeable with any other falsy value, exactly as in the
source). -/
structure Comp where
  price_per_sqft : Py := .none
  ppsf : Py := .none
  pricePerSqft : Py := .none
  sale_price : Py := .none
  price : Py := .none
  list_price : Py := .none
  sqft : Py := .none
  livingArea : Py := .none
  livableSqft : Py := .none
deriving DecidableEq, Repr

/-- The value one loop iteration of `_avg_ppsf_from_comps` appends for a
comp, if any: the parsed direct price-per-sqft when positive, else
`price / sqft` when both parse positive, else nothing. -/
def compContribution (c : Comp) : Option ℚ :=
  let p := safe_parse_float (pyOr (pyOr c.price_per_sqft c.ppsf) c.pricePerSqft)
  if 0 < p then some p
  else
    let price := safe_parse_float (pyOr (pyOr c.sale_price c.price) c.list_price)
    let sq := safe_parse_int (pyOr (pyOr c.sqft c.livingArea) c.livableSqft)
    if 0 < price ∧ 0 < sq then some (qDiv price (sq : ℚ)) else Option.none

/-- The `ppsf_vals` list accumulated by the loop of `_avg_ppsf_from_comps`. -/
def ppsfVals (comps : List Comp) : List ℚ :=
  comps.foldl
    (fun acc c =>
      match compContribution c with
      | some v => acc ++ [v]
      | Option.none => acc)
    []

/-- `_avg_ppsf_from_comps`: the mean of the accumulated values, `0.0` when
none survive. -/
def avgPpsfFromComps (comps : List Comp) : ℚ :=
  let vals := ppsfVals comps
  if vals = [] then 0 else qDiv (vals.foldl qAdd 0) (vals.length : ℚ)

/-! ## Price history and `_recent_sale_within_year` -/

/-- One `priceHistory` event as read by `_recent_sale_within_year`.
`date` is the parsed event datetime, measured in days (the source parses an
ISO-8601 string; `Option.none` models a missing, falsy or unparseable date,
all of which make the loop `continue`). -/
structure PriceEvent where
  event : Py := .none
  date : Option ℚ := Option.none
  price : Py := .none
deriving DecidableEq, Repr

/-- Python `str.lower()` for the ASCII strings of the modelled universe. -/
def lowerString (s : String) : String :=
  String.mk (s.data.map Char.toLower)

/-- `(ev.get("event") or "").lower()`: a string is lowercased, a falsy value
becomes `""`, and a truthy non-string raises `AttributeError`
(propagated as `Option.none`, which the enclosing `try` turns into `0`). -/
def eventKey : Py → Option String
  | .str s => some (lowerString s)
  | .none => some ""
  | .int n => if n = 0 then some "" else Option.none

/-- One iteration of the `_recent_sale_within_year` loop over the running
`(latest_sale_date, latest_sale_price)` state; `Option.none` is a raised
exception. -/
def recentScanStep (acc : Option (Option ℚ × Int)) (ev : PriceEvent) :
    Option (Option ℚ × Int) :=
  match acc with
  | Option.none => Option.none
  | some (latest, price) =>
      match eventKey ev.event with
      | Option.none => Option.none
      | some k =>
          if k ≠ "sold" then some (latest, price)
          else
            match ev.date with
            | Option.none => some (latest, price)
            | some d =>
                match latest with
                | Option.none => some (some d, safe_parse_int ev.price)
                | some d₀ =>
                    if d₀ < d then some (some d, safe_parse_int ev.price)
                    else some (latest, price)

/-- `_recent_sale_within_year`: the price of the most recent `sold` event if
its date falls within the last 365 days of `now` and the price parses
positive, else `0`; any exception also yields `0`. -/
def recentSaleWithinYear (now : ℚ) (events : List PriceEvent) : Int :=
  match events.foldl recentScanStep (some (Option.none, 0)) with
  | Option.none => 0
  | some (latest, price) =>
      match latest with
      | some d => if qSub now 365 < d ∧ 0 < price then price else 0
      | Option.none => 0

/-! ## The subject property and `_determine_property_value` -/

/-- The subject property record, restricted to the fields the valuation
waterfall reads through `get_field` (each listed synonym is its own field;
`get_field` returns the first that is not `None`). -/
structure PropertyDetails where
  price : Py := .none
  priceHistory : List PriceEvent := []
  estimate : Py := .none
  sqft : Py := .none
  livingArea : Py := .none
  livableSqft : Py := .none
  interiorSqft : Py := .none
  totalLivableArea : Py := .none
  floorArea : Py := .none
  estimatePerSqft : Py := .none
  pricePerSqft : Py := .none
  estPpsf : Py := .none
deriving DecidableEq, Repr

/-- `get_field` over an ordered list of synonym fields: the first value that
is not `None` (falsy non-`None` values are returned, as in the source). -/
def getField : List Py → Py
  | [] => .none
  | v :: rest => if v = .none then getField rest else v

/-- The subject livable square footage, with its synonym chain. -/
def subjectSqft (p : PropertyDetails) : Int :=
  safe_parse_int
    (getField [p.sqft, p.livingArea, p.livableSqft, p.interiorSqft,
      p.totalLivableArea, p.floorArea])

/-- The property-level fallback price-per-sqft, with its synonym chain. -/
def ppsfFallback (p : PropertyDetails) : ℚ :=
  safe_parse_float (getField [p.estimatePerSqft, p.pricePerSqft, p.estPpsf])

/-- `_determine_property_value` (the valuation waterfall): list price, then
recent sale, then platform estimate, then comps-average price-per-sqft times
subject sqft, then fallback price-per-sqft times subject sqft, else `0`. -/
def determinePropertyValue (now : ℚ) (p : PropertyDetails) (comps : List Comp) :
    Int :=
  let listPrice := safe_parse_int (getField [p.price])
  if 0 < listPrice then listPrice
  else
    let recentSale := recentSaleWithinYear now p.priceHistory
    if 0 < recentSale then recentSale
    else
      let redfinEstimate := safe_parse_int (getField [p.estimate])
      if 0 < redfinEstimate then redfinEstimate
      else
        let sq := subjectSqft p
        let avg := avgPpsfFromComps comps
        if 0 < sq ∧ 0 < avg then pyRound (qMul (sq : ℚ) avg)
        else
          let fb := ppsfFallback p
          if 0 < sq ∧ 0 < fb then pyRound (qMul (sq : ℚ) fb)
          else 0

/-! ## `_normalize_item` and the financial stage `process` -/

/-- A three-band `{low, medium, high}` dict as it arrives from the LLM
response (each key may be missing or loosely typed). -/
structure RawBands where
  low : Py := .none
  medium : Py := .none
  high : Py := .none
deriving DecidableEq, Repr

/-- `item.get(a) or item.get(b) or {}` over two optional band dicts: the
first present one wins (a literal empty dict is falsy and yields no fields,
exactly like an absent key, so it is modelled as absence). -/
def bandsOr (a b : Option RawBands) : RawBands :=
  match a with
  | some x => x
  | Option.none =>
      match b with
      | some y => y
      | Option.none => {}

/-- One raw renovation-idea item as consumed by `_normalize_item`, restricted
to the keys that feed its numeric outputs (the pass-through narrative fields
`name`, `description`, `feasibility`, `timeline`, `buyer_profile`,
`roadmap_steps`, `potential_risks`, `market_demand`, `local_trends` are
copied verbatim by the source and are not modelled). -/
structure RawItem where
  estimated_cost : Option RawBands := Option.none
  estimatedCost : Option RawBands := Option.none
  estimated_value_add : Option RawBands := Option.none
  estimatedValueAdd : Option RawBands := Option.none
  roi : Py := .none
  estimated_monthly_rent : Py := .none
deriving DecidableEq, Repr

/-- `int` with optional sign, for exponents of Python float literals. -/
def expOfChars : List Char → Option Int
  | '-' :: rest =>
      if rest ≠ [] ∧ rest.all Char.isDigit then some (-(digitsVal rest : Int)) else Option.none
  | '+' :: rest =>
      if rest ≠ [] ∧ rest.all Char.isDigit then some (digitsVal rest : Int) else Option.none
  | cs =>
      if cs ≠ [] ∧ cs.all Char.isDigit then some (digitsVal cs : Int) else Option.none

/-- ASCII whitespace stripped by Python's `str.strip()`. -/
def isPyWs (c : Char) : Bool :=
  c = ' ' || c = '\t' || c = '\n' || c = '\r' || c = Char.ofNat 11 || c = Char.ofNat 12

/-- `str.strip()`: remove leading and trailing whitespace. -/
def trimChars (cs : List Char) : List Char :=
  ((cs.dropWhile isPyWs).reverse.dropWhile isPyWs).reverse

/-- Python `float(value)` as used on the raw `roi` field: succeeds on
numbers and on strings holding a (possibly signed, possibly exponent-bearing)
decimal literal after stripping surrounding whitespace; `None` and anything
else raises (non-finite literals such as `inf`/`nan` are outside the
modelled universe). -/
def pyFloat : Py → Option ℚ
  | .none => Option.none
  | .int n => some (n : ℚ)
  | .str s =>
      let body : List Char → Option ℚ := fun cs =>
        let mant := cs.span (fun c => c ≠ 'e' && c ≠ 'E')
        match mant.2 with
        | [] => floatBodyOfChars mant.1
        | _ :: ex =>
            (floatBodyOfChars mant.1).bind fun q =>
              (expOfChars ex).map fun e =>
                if 0 ≤ e then qMul q (qPow 10 e.toNat) else qDiv q (qPow 10 (-e).toNat)
      match trimChars s.data with
      | '-' :: rest => (body rest).map Neg.neg
      | '+' :: rest => body rest
      | cs => body cs

/-- The numeric core of the dict `_normalize_item` returns (field names as
in the source). -/
structure NormalizedItem where
  cost_low : Int
  cost_medium : Int
  cost_high : Int
  value_low : Int
  value_medium : Int
  value_high : Int
  roi : ℚ
  after_repair_value : ℚ
  adjusted_roi : ℚ
  estimated_monthly_rent : Int
  new_total_sqft : Int
  new_price_per_sqft : ℚ
deriving DecidableEq, Repr

/-- `_normalize_item` (financial_agent.py): parse the cost and value-add
bands, take the item's own `roi` when it converts to a float and otherwise
recompute a clamped, rounded medium-band percentage, and derive the
after-repair value and per-sqft figures. -/
def normalizeItem (item : RawItem) (property_value : Int) (sqft : Option Int) :
    NormalizedItem :=
  let costRaw := bandsOr item.estimated_cost item.estimatedCost
  let valueRaw := bandsOr item.estimated_value_add item.estimatedValueAdd
  let costMedium := safe_parse_int costRaw.medium
  let valueMedium := safe_parse_int valueRaw.medium
  let roi : ℚ :=
    match pyFloat item.roi with
    | some r => r
    | Option.none =>
        if 0 < costMedium then
          qMax 0 (pyRoundTo 2
            (qMul (qDiv (qSub (valueMedium : ℚ) (costMedium : ℚ)) (costMedium : ℚ)) 100))
        else 0
  let arv : ℚ := qAdd ((intMax 0 property_value : Int) : ℚ) (valueMedium : ℚ)
  let newTotalSqft : Int := (sqft.getD 0)
  let newPricePerSqft : ℚ := if 0 < newTotalSqft then qDiv arv (newTotalSqft : ℚ) else 0
  { cost_low := safe_parse_int costRaw.low
    cost_medium := costMedium
    cost_high := safe_parse_int costRaw.high
    value_low := safe_parse_int valueRaw.low
    value_medium := valueMedium
    value_high := safe_parse_int valueRaw.high
    roi := roi
    after_repair_value := arv
    adjusted_roi := roi
    estimated_monthly_rent := safe_parse_int item.estimated_monthly_rent
    new_total_sqft := newTotalSqft
    new_price_per_sqft := newPricePerSqft }

/-- `FinancialAnalysisAgent.process`: determine the property value; when no
tier yields a positive value, return `[]` at once (the LLM is never invoked
and the input ideas are dropped).  Otherwise every item extracted from the
LLM response is normalized against the value and the subject sqft.
`ideas` is the `renovation_ideas` argument (it only feeds the prompt and
never reaches the output); `llmItems` stands for
`_extract_json_list(response_text)`, the items recovered from the LLM
response; the per-item pydantic validation always succeeds on the typed
items modelled here. -/
def financialProcess (now : ℚ) (p : PropertyDetails) (comps : List Comp)
    (ideas : List RawItem) (llmItems : List RawItem) : List NormalizedItem :=
  let property_value := determinePropertyValue now p comps
  if property_value ≤ 0 then []
  else
    let _ := ideas
    llmItems.map fun item => normalizeItem item property_value (some (subjectSqft p))

/-! ## A model of `json.loads`

The extractor layer feeds candidate substrings to Python's strict JSON
parser.  The model below implements the RFC 8259 grammar that
`json.loads` accepts with its default arguments (the non-standard
`NaN`/`Infinity` extensions are outside the modelled universe).  Duplicate
object keys are kept in order; Python keeps the last one, which never
matters below because equality is only used on duplicate-free objects. -/

/-- A Python value decoded by `json.loads` (numbers exactly, as rationals). -/
inductive JVal where
  | null : JVal
  | bool (b : Bool) : JVal
  | num (q : ℚ) : JVal
  | str (s : String) : JVal
  | arr (xs : List JVal) : JVal
  | obj (kvs : List (String × JVal)) : JVal
deriving Repr

/-- JSON insignificant whitespace. -/
def isJsonWs (c : Char) : Bool :=
  c = ' ' || c = '\t' || c = '\n' || c = '\r'

/-- Skip insignificant whitespace. -/
def jskip (cs : List Char) : List Char := cs.dropWhile isJsonWs

/-- One JSON number token at the head of the input (the tokenizer regex
`-?(0|[1-9]\d*)(\.\d+)?([eE][-+]?\d+)?`); returns the value and the rest. -/
def parseNumberTok (cs : List Char) : Option (ℚ × List Char) :=
  let signed : Bool × List Char :=
    match cs with
    | '-' :: r => (true, r)
    | _ => (false, cs)
  let intPart : Option (ℚ × List Char) :=
    match signed.2 with
    | '0' :: r => some (0, r)
    | c :: r =>
        if c.isDigit then
          let ds := r.span Char.isDigit
          some ((digitsVal (c :: ds.1) : ℚ), ds.2)
        else Option.none
    | [] => Option.none
  intPart.map fun (ip, r₁) =>
    let withFrac : ℚ × List Char :=
      match r₁ with
      | '.' :: r₂ =>
          let fs := r₂.span Char.isDigit
          if fs.1 ≠ [] then (qAdd ip (fracVal fs.1), fs.2) else (ip, r₁)
      | _ => (ip, r₁)
    let withExp : ℚ × List Char :=
      match withFrac.2 with
      | e :: r₃ =>
          if e = 'e' ∨ e = 'E' then
            let signedExp : Bool × List Char :=
              match r₃ with
              | '-' :: r₄ => (true, r₄)
              | '+' :: r₄ => (false, r₄)
              | _ => (false, r₃)
            let ds := signedExp.2.span Char.isDigit
            if ds.1 ≠ [] then
              (if signedExp.1 then qDiv withFrac.1 (qPow 10 (digitsVal ds.1))
                else qMul withFrac.1 (qPow 10 (digitsVal ds.1)),
                ds.2)
            else withFrac
          else withFrac
      | [] => withFrac
    (if signed.1 then -withExp.1 else withExp.1, withExp.2)

/-- One escape character after a backslash in a JSON string. -/
def jsonEscape : Char → Option Char
  | '"' => some '"'
  | '\\' => some '\\'
  | '/' => some '/'
  | 'b' => some (Char.ofNat 8)
  | 'f' => some (Char.ofNat 12)
  | 'n' => some '\n'
  | 'r' => some '\r'
  | 't' => some '\t'
  | _ => Option.none

/-- Hexadecimal digit value. -/
def hexVal (c : Char) : Option Nat :=
  if c.isDigit then some (c.toNat - '0'.toNat)
  else if 'a' ≤ c ∧ c ≤ 'f' then some (c.toNat - 'a'.toNat + 10)
  else if 'A' ≤ c ∧ c ≤ 'F' then some (c.toNat - 'A'.toNat + 10)
  else Option.none

/-- The body of a JSON string after the opening quote: collect characters
until the closing quote, handling escapes; control characters are rejected
(strict mode).  Surrogate pairs are not recombined, which never matters for
the plain-ASCII strings below. -/
def parseStringBody : Nat → List Char → List Char → Option (String × List Char)
  | 0, _, _ => Option.none
  | _ + 1, acc, '"' :: rest => some (String.mk acc.reverse, rest)
  | fuel + 1, acc, '\\' :: 'u' :: h₁ :: h₂ :: h₃ :: h₄ :: rest =>
      match hexVal h₁, hexVal h₂, hexVal h₃, hexVal h₄ with
      | some a, some b, some c, some d =>
          let n := ((a * 16 + b) * 16 + c) * 16 + d
          if n.isValidChar then
            parseStringBody fuel (Char.ofNat n :: acc) rest
          else Option.none
      | _, _, _, _ => Option.none
  | fuel + 1, acc, '\\' :: e :: rest =>
      match jsonEscape e with
      | some c => parseStringBody fuel (c :: acc) rest
      | Option.none => Option.none
  | fuel + 1, acc, c :: rest =>
      if c.toNat < 32 then Option.none else parseStringBody fuel (c :: acc) rest
  | _ + 1, _, [] => Option.none

mutual

/-- One JSON value at the head of the input. -/
def parseValue : Nat → List Char → Option (JVal × List Char)
  | 0, _ => Option.none
  | fuel + 1, cs =>
      match cs with
      | '{' :: rest =>
          match jskip rest with
          | '}' :: r => some (JVal.obj [], r)
          | cs' => parseMembers fuel cs' []
      | '[' :: rest =>
          match jskip rest with
          | ']' :: r => some (JVal.arr [], r)
          | cs' => parseElements fuel cs' []
      | '"' :: rest =>
          (parseStringBody (rest.length + 1) [] rest).map fun (s, r) => (JVal.str s, r)
      | 't' :: 'r' :: 'u' :: 'e' :: rest => some (JVal.bool true, rest)
      | 'f' :: 'a' :: 'l' :: 's' :: 'e' :: rest => some (JVal.bool false, rest)
      | 'n' :: 'u' :: 'l' :: 'l' :: rest => some (JVal.null, rest)
      | _ => (parseNumberTok cs).map fun (q, r) => (JVal.num q, r)

/-- The members of a JSON object, positioned at the start of a key. -/
def parseMembers : Nat → List Char → List (String × JVal) →
    Option (JVal × List Char)
  | 0, _, _ => Option.none
  | fuel + 1, cs, acc =>
      match cs with
      | '"' :: rest =>
          match parseStringBody (rest.length + 1) [] rest with
          | some (k, r₁) =>
              match jskip r₁ with
              | ':' :: r₂ =>
                  match parseValue fuel (jskip r₂) with
                  | some (v, r₃) =>
                      match jskip r₃ with
                      | ',' :: r₄ => parseMembers fuel (jskip r₄) (acc ++ [(k, v)])
                      | '}' :: r₄ => some (JVal.obj (acc ++ [(k, v)]), r₄)
                      | _ => Option.none
                  | Option.none => Option.none
              | _ => Option.none
          | Option.none => Option.none
      | _ => Option.none

/-- The elements of a JSON array, positioned at the start of an element. -/
def parseElements : Nat → List Char → List JVal → Option (JVal × List Char)
  | 0, _, _ => Option.none
  | fuel + 1, cs, acc =>
      match parseValue fuel cs with
      | some (v, r) =>
          match jskip r with
          | ',' :: r₂ => parseElements fuel (jskip r₂) (acc ++ [v])
          | ']' :: r₂ => some (JVal.arr (acc ++ [v]), r₂)
          | _ => Option.none
      | Option.none => Option.none

end

/-- `json.loads`: parse one value surrounded only by whitespace; anything
else raises `JSONDecodeError`, modelled as `Option.none`. -/
def jsonLoads (s : String) : Option JVal :=
  match parseValue (s.length + 1) (jskip s.data) with
  | some (v, rest) => if jskip rest = [] then some v else Option.none
  | Option.none => Option.none

/-! ## `_extract_json_list` (financial_agent.py) -/

/-- The whitespace class of Python's `re` module `\s`, ASCII range. -/
def isReWs (c : Char) : Bool :=
  c = ' ' || c = '\t' || c = '\n' || c = '\r' || c = Char.ofNat 12 || c = Char.ofNat 11

/-- `re.sub(r",\s*([\]\}])", r"\1", s)`: delete every comma that is followed,
up to whitespace, by a closing bracket or brace (left-to-right,
non-overlapping, exactly as `re.sub` scans). -/
def stripTrailingCommasAux : Nat → List Char → List Char
  | 0, cs => cs
  | _ + 1, [] => []
  | fuel + 1, ',' :: rest =>
      match rest.dropWhile isReWs with
      | c :: r₃ =>
          if c = ']' || c = '}' then c :: stripTrailingCommasAux fuel r₃
          else ',' :: stripTrailingCommasAux fuel rest
      | [] => ',' :: stripTrailingCommasAux fuel rest
  | fuel + 1, c :: rest => c :: stripTrailingCommasAux fuel rest

/-- String-level wrapper for the trailing-comma cleanup. -/
def stripTrailingCommas (s : String) : String :=
  String.mk (stripTrailingCommasAux s.length s.data)

/-- The bracket-scan fallback of `_extract_json_list`: the substring from
the earliest `[` or `{` through the latest `]` or `}` after it, if both
exist.  (The preceding fenced-code-block regex requires a literal
triple-backtick; the claims below are settled on fence-free responses, on
which that regex cannot match, so only this fallback is modelled.) -/
def extractCandidate (s : String) : Option String :=
  let rest := s.data.dropWhile (fun c => c ≠ '[' && c ≠ '{')
  match rest with
  | [] => Option.none
  | _ =>
      match rest.reverse.findIdx? (fun c => c = ']' || c = '}') with
      | some k => some (String.mk (rest.take (rest.length - k)))
      | Option.none => Option.none

/-- `isinstance` dispatch at the end of `_extract_json_list`: a dict is
wrapped in a singleton list, a list passes through, anything else is `[]`. -/
def toListResult : JVal → List JVal
  | JVal.obj ms => [JVal.obj ms]
  | JVal.arr xs => xs
  | _ => []

/-- `_extract_json_list`: empty text or no candidate yields `[]`; otherwise
the candidate is parsed, once as-is and - inside the `except` handler - once
more after the trailing-comma cleanup.  The second `json.loads` is *not*
guarded, so when it also fails the `JSONDecodeError` escapes the function;
that uncaught exception is modelled as `Except.error` carrying the
candidate. -/
def extractJsonList (text : String) : Except String (List JVal) :=
  if text = "" then Except.ok []
  else
    match extractCandidate text with
    | Option.none => Except.ok []
    | some candidate =>
        match jsonLoads candidate with
        | some data => Except.ok (toListResult data)
        | Option.none =>
            match jsonLoads (stripTrailingCommas candidate) with
            | some data => Except.ok (toListResult data)
            | Option.none => Except.error candidate

/-! ## `TextAnalysisAgent._clean_json_string` and the text-agent parse path -/

/-- `re.sub(r'(\d),(?=\d{3})', r'\1', s)`: delete every comma that stands
between a digit and three following digits (left-to-right, non-overlapping;
the lookahead leaves the three digits unconsumed, so they can open the next
match). -/
def cleanNumAux : List Char → List Char
  | c :: ',' :: d₁ :: d₂ :: d₃ :: rest =>
      if c.isDigit && d₁.isDigit && d₂.isDigit && d₃.isDigit then
        c :: cleanNumAux (d₁ :: d₂ :: d₃ :: rest)
      else
        c :: cleanNumAux (',' :: d₁ :: d₂ :: d₃ :: rest)
  | c :: rest => c :: cleanNumAux rest
  | [] => []

/-- `_clean_json_string` (text_agent.py). -/
def cleanJsonString (s : String) : String := String.mk (cleanNumAux s.data)

/-- `if "renovation_ideas" not in result: ...; if "error" not in result: ...`
at the end of the success path of `TextAnalysisAgent.process`. -/
def ensureIdeaKeys : JVal → JVal
  | JVal.obj ms =>
      let ms₁ :=
        if ms.any (fun m => m.1 = "renovation_ideas") then ms
        else ms ++ [("renovation_ideas", JVal.arr [])]
      let ms₂ :=
        if ms₁.any (fun m => m.1 = "error") then ms₁
        else ms₁ ++ [("error", JVal.null)]
      JVal.obj ms₂
  | v => v

/-- The outcome of `TextAnalysisAgent.process`: either the parsed JSON dict
(with the `renovation_ideas`/`error` keys ensured) or the error dict
`{"renovation_ideas": [], "error": ...}`, whose message embeds the stripped
response truncated to 1000 characters; the model carries that truncated
text. -/
inductive TextOutcome where
  | parsed (v : JVal) : TextOutcome
  | failure (rawTruncated : String) : TextOutcome
deriving Repr

/-- The parse path of `TextAnalysisAgent.process`, given the LLM response
text (modelled for fence-free responses, on which the markdown-fence
regex cannot match): strip the response; if it looks like a direct JSON
object, clean the thousands-separator commas and parse it; otherwise, and on
any parse failure, return the error dict carrying the truncated response.
The surrounding `try` catches everything, so no exception escapes. -/
def textAgentProcess (responseContent : String) : TextOutcome :=
  let raw := String.mk (trimChars responseContent.data)
  if raw.data.head? = some '{' ∧ raw.data.getLast? = some '}' then
    match jsonLoads (cleanJsonString raw) with
    | some v => TextOutcome.parsed (ensureIdeaKeys v)
    | Option.none => TextOutcome.failure (String.mk (raw.data.take 1000))
  else TextOutcome.failure (String.mk (raw.data.take 1000))

/-! ## Pipeline orchestration and the job lifecycle

`OrchestratorAgent.generate_full_report` and
`ReportService.generate_detailed_report_background` drive the same stage
sequence: idea generation (text agent), image review (only when image
references exist), market analysis (only when an address exists), then
report compilation.  Each stage call goes to an external service, so its
outcome is modelled as `Except String IdeasDict`: `Except.error` is an
exception escaping the stage call (the agents' internal failures are
returned as dicts carrying an `error` key, which is `Except.ok`). -/

/-- An `{"estimated_cost"/"estimated_value_add": {low, medium, high}}`
band dict as summed by `_compile_full_report` (`.get(_, 0)` makes a missing
key and a zero entry indistinguishable there). -/
structure IntBands where
  low : Int := 0
  medium : Int := 0
  high : Int := 0
deriving DecidableEq, Repr

/-- One renovation-idea dict as consumed by `_compile_full_report`. -/
structure IdeaRec where
  name : String := ""
  estimated_cost : Option IntBands := Option.none
  estimated_value_add : Option IntBands := Option.none
deriving DecidableEq, Repr

/-- The dict shape the idea-pipeline stages pass along.  An `Option` field
models key presence (`some []` is a present key holding an empty list, which
is what the text agent returns when it recovers no ideas). -/
structure IdeasDict where
  renovation_ideas : Option (List IdeaRec) := Option.none
  refined_renovation_ideas : Option (List IdeaRec) := Option.none
  market_adjusted_ideas : Option (List IdeaRec) := Option.none
  market_summary : Option String := Option.none
  error : Option String := Option.none
deriving DecidableEq, Repr

/-- The property payload fields the orchestration layer itself reads. -/
structure PropertySnapshot where
  images : List String := []
  address : String := ""
deriving DecidableEq, Repr

/-- The no-image pass-through: `refined_ideas = initial_ideas`, copying
`renovation_ideas` into `refined_renovation_ideas` when the latter key is
absent (both orchestrator variants do this identically). -/
def passThroughRefined (d : IdeasDict) : IdeasDict :=
  if d.renovation_ideas.isSome ∧ d.refined_renovation_ideas = Option.none then
    { d with refined_renovation_ideas := d.renovation_ideas }
  else d

/-- The no-address pass-through: `market_adjusted = refined_ideas`, copying
`refined_renovation_ideas` into `market_adjusted_ideas` when the latter key
is absent. -/
def passThroughMarket (d : IdeasDict) : IdeasDict :=
  if d.refined_renovation_ideas.isSome ∧ d.market_adjusted_ideas = Option.none then
    { d with market_adjusted_ideas := d.refined_renovation_ideas }
  else d

/-- The `detailed_report` block built by `_compile_full_report`, restricted
to the fields derived from the stage outputs (comparable properties and
contractors are read from keys no modelled stage produces). -/
structure CompiledReport where
  renovation_ideas : List IdeaRec
  market_summary : String
  total_budget : IntBands
  potential_value_increase : IntBands
  average_roi : ℚ
deriving DecidableEq, Repr

/-- `_compile_full_report`: select the most-refined ideas list available,
total the cost and value-add bands, and derive the average return
percentage. -/
def compileFullReport (initial refined market : IdeasDict) : CompiledReport :=
  let finalIdeas :=
    match market.market_adjusted_ideas with
    | some xs => xs
    | Option.none =>
        match refined.refined_renovation_ideas with
        | some xs => xs
        | Option.none => initial.renovation_ideas.getD []
  let costOf : IdeaRec → IntBands := fun i => i.estimated_cost.getD {}
  let valueOf : IdeaRec → IntBands := fun i => i.estimated_value_add.getD {}
  let totalBudget : IntBands :=
    { low := (finalIdeas.map (fun i => (costOf i).low)).sum
      medium := (finalIdeas.map (fun i => (costOf i).medium)).sum
      high := (finalIdeas.map (fun i => (costOf i).high)).sum }
  let totalValue : IntBands :=
    { low := (finalIdeas.map (fun i => (valueOf i).low)).sum
      medium := (finalIdeas.map (fun i => (valueOf i).medium)).sum
      high := (finalIdeas.map (fun i => (valueOf i).high)).sum }
  { renovation_ideas := finalIdeas
    market_summary := market.market_summary.getD ""
    total_budget := totalBudget
    potential_value_increase := totalValue
    average_roi :=
      if 0 < totalBudget.medium then
        pyRoundTo 1 (qMul (qDiv (totalValue.medium : ℚ) (totalBudget.medium : ℚ)) 100)
      else 0 }

/-- The value `generate_full_report` returns: the compiled report, or - when
an exception escaped a stage inside its `try` - the minimal structure
`{"error": str(e), "property": property_data}`. -/
inductive FullReportResult where
  | ok (report : CompiledReport) : FullReportResult
  | errorReport (message : String) (property : PropertySnapshot) : FullReportResult
deriving DecidableEq, Repr

/-- `OrchestratorAgent.generate_full_report`, with the three stage
invocations abstracted as `Except` outcomes: run the text agent, the image
agent only when image references exist, the market agent only when an
address exists, then compile; an exception anywhere inside is caught at this
function's boundary and becomes an error report.  This function never
raises. -/
def generateFullReport (prop : PropertySnapshot)
    (textResult imageResult marketResult : Except String IdeasDict) :
    FullReportResult :=
  match textResult with
  | Except.error e => FullReportResult.errorReport e prop
  | Except.ok initial =>
      let refinedE :=
        if prop.images ≠ [] then imageResult
        else Except.ok (passThroughRefined initial)
      match refinedE with
      | Except.error e => FullReportResult.errorReport e prop
      | Except.ok refined =>
          let marketE :=
            if prop.address ≠ "" then marketResult
            else Except.ok (passThroughMarket refined)
          match marketE with
          | Except.error e => FullReportResult.errorReport e prop
          | Except.ok market => FullReportResult.ok (compileFullReport initial refined market)

/-- A stored job record (the Redis payload of app.py), restricted to the
fields the lifecycle claims are about.  On the `complete` path the template
builder reads the property under the key `property_details`, which the
orchestrator's report does not carry, so the stored property block is empty
(`Option.none` here); the failure path rebuilds it from the submitted
payload. -/
structure StoredReport where
  status : String
  property : Option PropertySnapshot := Option.none
  error : Option String := Option.none
  report : Option CompiledReport := Option.none
deriving DecidableEq, Repr

/-- The exception every app.py background run raises at setup:
`OrchestratorAgent()` (app.py line 183) omits the constructor's required
`api_key` argument (`OrchestratorAgent.__init__(self, api_key: str, ...)`,
orchestrator.py line 13), so the first statement of the `try` raises
`TypeError` before `generate_full_report` or any stage can execute. -/
def orchestratorSetupFailure : String :=
  "OrchestratorAgent.__init__() missing 1 required positional argument: api_key"

/-- `run_orchestrator_in_background` (app.py), transcribing the function
body: a result of `generate_full_report` is stored with status `complete`
(the template builder attaches the orchestrator's absorbed error only when
the message is truthy); an exception escaping the `try` - modelled by
`outerExc` - is caught and stored as a `failed` record that preserves the
original property snapshot.  On the real entry path the setup raise makes
`outerExc` always `some orchestratorSetupFailure`, so the `complete`
branches transcribe source text that is unreachable from this entry point
(dead code, kept for fidelity to the body). -/
def runOrchestratorInBackground (prop : PropertySnapshot)
    (textResult imageResult marketResult : Except String IdeasDict)
    (outerExc : Option String) : StoredReport :=
  match outerExc with
  | some e => { status := "failed", property := some prop, error := some e }
  | Option.none =>
      match generateFullReport prop textResult imageResult marketResult with
      | FullReportResult.ok r => { status := "complete", report := some r }
      | FullReportResult.errorReport e _ =>
          { status := "complete",
            error := if e = "" then Option.none else some e }

/-- The sequence of status values written to the store for one app.py job:
`analyze_property` writes the initial `processing` shell synchronously, then
the background thread writes exactly one more record. -/
def appJobStatusTrace (prop : PropertySnapshot)
    (textResult imageResult marketResult : Except String IdeasDict)
    (outerExc : Option String) : List String :=
  ["processing",
    (runOrchestratorInBackground prop textResult imageResult marketResult outerExc).status]

/-- One run of `ReportService.generate_detailed_report_background`: the
status values written through `update_report`, the agents invoked, and the
compiled report (present only when the run completes). -/
structure BackgroundRun where
  statusWrites : List String
  stagesCalled : List String
  finalReport : Option CompiledReport := Option.none
deriving DecidableEq, Repr

/-- `ReportService.generate_detailed_report_background`, stage invocations
abstracted as `Except` outcomes.  Two `processing` progress updates precede
the text agent, one more precedes each of the image and market steps, and
the run ends with a `completed` write; an exception anywhere inside the
`try` falls to the handler, which writes `failed`. -/
def reportServiceBackgroundRun (prop : PropertySnapshot)
    (textResult imageResult marketResult : Except String IdeasDict) :
    BackgroundRun :=
  match textResult with
  | Except.error _ =>
      { statusWrites := ["processing", "processing", "failed"]
        stagesCalled := ["text_agent"] }
  | Except.ok initial =>
      let imageInvoked := prop.images ≠ []
      let refinedE :=
        if imageInvoked then imageResult else Except.ok (passThroughRefined initial)
      let calls₁ := ["text_agent"] ++ if imageInvoked then ["image_agent"] else []
      match refinedE with
      | Except.error _ =>
          { statusWrites := ["processing", "processing", "processing", "failed"]
            stagesCalled := calls₁ }
      | Except.ok refined =>
          let marketInvoked := prop.address ≠ ""
          let marketE :=
            if marketInvoked then marketResult else Except.ok (passThroughMarket refined)
          let calls₂ := calls₁ ++ if marketInvoked then ["market_agent"] else []
          match marketE with
          | Except.error _ =>
              { statusWrites :=
                  ["processing", "processing", "processing", "processing", "failed"]
                stagesCalled := calls₂ }
          | Except.ok market =>
              { statusWrites :=
                  ["processing", "processing", "processing", "processing", "completed"]
                stagesCalled := calls₂
                finalReport := some (compileFullReport initial refined market) }

/-- The status trace of one FastAPI-service job: `create_report` stores the
initial `processing` record, then the background task's `update_report`
writes follow. -/
def serviceJobStatusTrace (prop : PropertySnapshot)
    (textResult imageResult marketResult : Except String IdeasDict) : List String :=
  "processing" :: (reportServiceBackgroundRun prop textResult imageResult marketResult).statusWrites

/-- A terminal job status. -/
def statusTerminal (s : String) : Bool :=
  s = "complete" || s = "completed" || s = "failed"

/-- Monotonicity of a status-write sequence: it opens with `processing`,
every status is one of the known ones, and nothing written after a terminal
status differs from it. -/
def monotonicStatuses : List String → Bool
  | [] => false
  | s :: rest =>
      s = "processing" &&
      (s :: rest).all (fun t => t = "processing" || statusTerminal t) &&
      noChangeAfterTerminal (s :: rest)
where
  /-- Every write after a terminal write repeats it. -/
  noChangeAfterTerminal : List String → Bool
    | [] => true
    | s :: rest =>
        (if statusTerminal s then rest.all (· = s) else true) &&
        noChangeAfterTerminal rest

/-! ## Shared lemmas -/

lemma qAdd_eq (a b : ℚ) : qAdd a b = a + b := by
  rw [qAdd, Rat.divInt_eq_div]
  push_cast
  conv_rhs => rw [← Rat.num_div_den a, ← Rat.num_div_den b]
  rw [div_add_div _ _ (by exact_mod_cast a.den_nz) (by exact_mod_cast b.den_nz)]
  ring_nf

lemma qMul_eq (a b : ℚ) : qMul a b = a * b := by
  rw [qMul, Rat.divInt_eq_div]
  push_cast
  conv_rhs => rw [← Rat.num_div_den a, ← Rat.num_div_den b]
  rw [div_mul_div_comm]

lemma qDiv_eq (a b : ℚ) : qDiv a b = a / b := by
  rcases eq_or_ne b 0 with rfl | hb
  · simp [qDiv, Rat.divInt_eq_div]
  · have hbn : (b.num : ℚ) ≠ 0 := by exact_mod_cast Rat.num_ne_zero.2 hb
    have had : (a.den : ℚ) ≠ 0 := by exact_mod_cast a.den_nz
    have hbd : (b.den : ℚ) ≠ 0 := by exact_mod_cast b.den_nz
    rw [qDiv, Rat.divInt_eq_div]
    push_cast
    conv_rhs => rw [← Rat.num_div_den a, ← Rat.num_div_den b]
    field_simp

lemma qSub_eq (a b : ℚ) : qSub a b = a - b := by
  rw [qSub, qAdd_eq]; ring

lemma qMax_eq (a b : ℚ) : qMax a b = max a b := by
  rcases lt_trichotomy a b with h | rfl | h
  · rw [qMax, if_pos h, max_eq_right h.le]
  · rw [qMax, if_neg (lt_irrefl a), max_self]
  · rw [qMax, if_neg (not_lt.2 h.le), max_eq_left h.le]

lemma qPow_eq (a : ℚ) (n : Nat) : qPow a n = a ^ n := by
  induction n with
  | zero => rw [qPow, pow_zero]
  | succ n ih => rw [qPow, qMul_eq, ih, pow_succ]

lemma intMax_eq (a b : Int) : intMax a b = max a b := by
  rcases lt_trichotomy a b with h | rfl | h
  · rw [intMax, if_pos h, max_eq_right h.le]
  · rw [intMax, if_neg (lt_irrefl a), max_self]
  · rw [intMax, if_neg (not_lt.2 h.le), max_eq_left h.le]

lemma ratFloor_eq (q : ℚ) : q.floor = ⌊q⌋ := by
  rw [Rat.floor_def', Rat.floor_def]

/-- The accumulator loop of `_avg_ppsf_from_comps` collects exactly the
per-comp contributions, in order. -/
lemma foldl_contribution_eq_filterMap (comps : List Comp) (acc : List ℚ) :
    comps.foldl
      (fun acc c =>
        match compContribution c with
        | some v => acc ++ [v]
        | Option.none => acc)
      acc = acc ++ comps.filterMap compContribution := by
  induction comps generalizing acc with
  | nil => simp
  | cons c cs ih =>
      cases h : compContribution c <;>
        simp [List.foldl_cons, h, ih, List.filterMap_cons]

/-- Folding `qAdd` from `0` is `List.sum` (Python's `sum`). -/
lemma foldl_qAdd_zero_eq_sum (l : List ℚ) : l.foldl qAdd 0 = l.sum := by
  suffices h : ∀ (l : List ℚ) (a : ℚ), l.foldl qAdd a = a + l.sum by
    simpa using h l 0
  intro l
  induction l with
  | nil => intro a; simp
  | cons x xs ih =>
      intro a
      rw [List.foldl_cons, qAdd_eq, ih, List.sum_cons]
      ring

/-! ## Claims -/

set_option maxRecDepth 4000

/-- C1: the valuation waterfall selects the property value in the fixed tier
order - list price, recent sold event within 365 days, platform estimate,
living area times comp-average price-per-sqft, living area times
platform price-per-sqft - and each tier is used only when every earlier tier
produced nothing positive.  Concretely: a list price of 500000 wins
regardless of comps, a lone sold event 40 days old priced 480000 yields
480000, and sqft 2000 with comp-average 600 yields 1200000. -/
theorem waterfall_tier_order (now : ℚ) (p : PropertyDetails) (comps : List Comp) :
    (0 < safe_parse_int (getField [p.price]) →
      determinePropertyValue now p comps = safe_parse_int (getField [p.price])) ∧
    (safe_parse_int (getField [p.price]) ≤ 0 →
      0 < recentSaleWithinYear now p.priceHistory →
      determinePropertyValue now p comps = recentSaleWithinYear now p.priceHistory) ∧
    (safe_parse_int (getField [p.price]) ≤ 0 →
      recentSaleWithinYear now p.priceHistory ≤ 0 →
      0 < safe_parse_int (getField [p.estimate]) →
      determinePropertyValue now p comps = safe_parse_int (getField [p.estimate])) ∧
    (safe_parse_int (getField [p.price]) ≤ 0 →
      recentSaleWithinYear now p.priceHistory ≤ 0 →
      safe_parse_int (getField [p.estimate]) ≤ 0 →
      0 < subjectSqft p → 0 < avgPpsfFromComps comps →
      determinePropertyValue now p comps =
        pyRound ((subjectSqft p : ℚ) * avgPpsfFromComps comps)) ∧
    (safe_parse_int (getField [p.price]) ≤ 0 →
      recentSaleWithinYear now p.priceHistory ≤ 0 →
      safe_parse_int (getField [p.estimate]) ≤ 0 →
      ¬(0 < subjectSqft p ∧ 0 < avgPpsfFromComps comps) →
      0 < subjectSqft p → 0 < ppsfFallback p →
      determinePropertyValue now p comps =
        pyRound ((subjectSqft p : ℚ) * ppsfFallback p)) ∧
    (p.price = Py.int 500000 → determinePropertyValue now p comps = 500000) ∧
    determinePropertyValue 0
      { priceHistory :=
          [{ event := Py.str "Sold", date := some (-40), price := Py.int 480000 }] }
      [] = 480000 ∧
    determinePropertyValue 0 { sqft := Py.int 2000 }
      [{ price_per_sqft := Py.int 600 }] = 1200000 := by
  refine ⟨?_, ?_, ?_, ?_, ?_, ?_, by decide, by decide⟩
  · intro h₁
    unfold determinePropertyValue
    rw [if_pos h₁]
  · intro h₁ h₂
    unfold determinePropertyValue
    rw [if_neg (by omega), if_pos h₂]
  · intro h₁ h₂ h₃
    unfold determinePropertyValue
    rw [if_neg (by omega), if_neg (by omega), if_pos h₃]
  · intro h₁ h₂ h₃ h₄ h₅
    unfold determinePropertyValue
    rw [if_neg (by omega), if_neg (by omega), if_neg (by omega), if_pos ⟨h₄, h₅⟩,
      qMul_eq]
  · intro h₁ h₂ h₃ h₄ h₅ h₆
    unfold determinePropertyValue
    rw [if_neg (by omega), if_neg (by omega), if_neg (by omega), if_neg h₄,
      if_pos ⟨h₅, h₆⟩, qMul_eq]
  · intro h₁
    unfold determinePropertyValue
    rw [h₁]
    rw [if_pos (by decide : (0 : Int) < safe_parse_int (getField [Py.int 500000]))]
    decide

/-- Witness for C1 at a concrete input: tier 1 applies with list price
500000 even in the presence of comps. -/
theorem waterfall_tier_order_witness :
    determinePropertyValue 0 { price := Py.int 500000 }
      [{ price_per_sqft := Py.int 600 }] = 500000 := by
  have h :=
    (waterfall_tier_order 0 { price := Py.int 500000 }
      [{ price_per_sqft := Py.int 600 }]).2.2.2.2.2.1
  exact h rfl

/-- C6: the two value parsers on the claim's inputs.  `safe_parse_float`
returns the claimed magnitudes and maps `None` to its absent result `0.0`;
`_parse_number`, however, turns the comma into a space before matching, so
the digit groups separate and the largest group wins: `"$1,234.50"` gives
`234.5` and `"5,600 sq ft"` gives `600.0`, contradicting both the claim and
the function's own comments. -/
theorem value_parser_eval :
    safe_parse_float (Py.str "$1,234.50") = 1234.5 ∧
    safe_parse_float (Py.str "5,600 sq ft") = 5600 ∧
    safe_parse_float Py.none = 0 ∧
    safe_parse_int (Py.str "$1,234.50") = 123450 ∧
    pyParseNumber (Py.str "$1,234.50") = some 234.5 ∧
    pyParseNumber (Py.str "5,600 sq ft") = some 600 ∧
    pyParseNumber Py.none = Option.none := by
  refine ⟨?_, by decide, by decide, by decide, ?_, by decide, by decide⟩
  · have h : safe_parse_float (Py.str "$1,234.50") = mkRat 2469 2 := by decide
    rw [h]
    norm_num [Rat.mkRat_eq_div]
  · have h : pyParseNumber (Py.str "$1,234.50") = some (mkRat 469 2) := by decide
    rw [h]
    norm_num [Rat.mkRat_eq_div]

/-- C7: comp averaging.  The loop keeps, for each comp, the directly
supplied price-per-sqft when it parses positive, else `price / sqft` when
both parse positive, and discards the comp otherwise; the average is the
mean of the survivors.  On the claim's comps the average is 475, and a comp
with no derivable price-per-area is excluded without affecting it. -/
theorem comp_averaging (comps : List Comp) :
    ppsfVals comps = comps.filterMap compContribution ∧
    (comps.filterMap compContribution ≠ [] →
      avgPpsfFromComps comps =
        (comps.filterMap compContribution).sum /
          ((comps.filterMap compContribution).length : ℚ)) ∧
    (comps.filterMap compContribution = [] → avgPpsfFromComps comps = 0) ∧
    compContribution { price := Py.int 500000, sqft := Py.int 1000 } = some 500 ∧
    compContribution { price_per_sqft := Py.int 450 } = some 450 ∧
    compContribution {} = Option.none ∧
    avgPpsfFromComps
      [{ price := Py.int 500000, sqft := Py.int 1000 },
        { price_per_sqft := Py.int 450 }] = 475 ∧
    avgPpsfFromComps
      [{ price := Py.int 500000, sqft := Py.int 1000 },
        { price_per_sqft := Py.int 450 }, {}] = 475 := by
  have hvals : ppsfVals comps = comps.filterMap compContribution :=
    foldl_contribution_eq_filterMap comps []
  refine ⟨hvals, ?_, ?_, by decide, by decide, by decide, by decide, by decide⟩
  · intro hne
    unfold avgPpsfFromComps
    rw [hvals, if_neg hne, qDiv_eq, foldl_qAdd_zero_eq_sum]
  · intro he
    unfold avgPpsfFromComps
    rw [hvals, if_pos he]

/-- Witness for C7 at a concrete input: the mean formula applied to the
claim's two comps. -/
theorem comp_averaging_witness :
    avgPpsfFromComps
      [{ price := Py.int 500000, sqft := Py.int 1000 },
        { price_per_sqft := Py.int 450 }] =
      ([{ price := Py.int 500000, sqft := Py.int 1000 },
        ({ price_per_sqft := Py.int 450 } : Comp)].filterMap compContribution).sum /
        (([{ price := Py.int 500000, sqft := Py.int 1000 },
          ({ price_per_sqft := Py.int 450 } : Comp)].filterMap compContribution).length : ℚ) := by
  exact
    (comp_averaging
      [{ price := Py.int 500000, sqft := Py.int 1000 },
        { price_per_sqft := Py.int 450 }]).2.1 (by decide)

/-- The C2 counterexample item: medium cost 100000, medium value-add 200000,
no `roi` supplied by the model. -/
def roiCexItem : RawItem :=
  { estimated_cost := some { medium := Py.int 100000 }
    estimated_value_add := some { medium := Py.int 200000 } }

/-- C2 counterexample: at property value 500000 the normalized item has
after-repair value 700000 as claimed, but its adjusted ROI is 100 - the
recomputed medium-band *percentage* - not the claimed ratio
(700000 − 500000 − 100000) / 100000 = 1. -/
theorem normalize_item_roi_cex :
    (normalizeItem roiCexItem 500000 Option.none).after_repair_value = 700000 ∧
    (normalizeItem roiCexItem 500000 Option.none).adjusted_roi = 100 ∧
    ((normalizeItem roiCexItem 500000 Option.none).after_repair_value
        - 500000 - 100000) / 100000 = 1 ∧
    (normalizeItem roiCexItem 500000 Option.none).adjusted_roi ≠
      ((normalizeItem roiCexItem 500000 Option.none).after_repair_value
        - 500000 - 100000) / 100000 := by
  have harv : (normalizeItem roiCexItem 500000 Option.none).after_repair_value
      = 700000 := by decide
  have hroi : (normalizeItem roiCexItem 500000 Option.none).adjusted_roi
      = 100 := by decide
  refine ⟨harv, hroi, ?_, ?_⟩
  · rw [harv]; norm_num
  · rw [harv, hroi]; norm_num

/-- C2 as amended: once a positive property value is established, the
after-repair value is the property value plus the medium value-add, but the
adjusted ROI is the item's own `roi` whenever that converts to a float, and
otherwise the *percentage* `max(0, round₂(100 · (ARV − value − medium cost)
/ medium cost))` for positive medium cost (else `0`) - not the plain
ratio. -/
theorem normalize_item_amended (item : RawItem) (pv : Int) (sqft : Option Int)
    (hpv : 0 < pv) :
    (normalizeItem item pv sqft).after_repair_value =
      (pv : ℚ) + ((normalizeItem item pv sqft).value_medium : ℚ) ∧
    (normalizeItem item pv sqft).adjusted_roi =
      (match pyFloat item.roi with
       | some r => r
       | Option.none =>
           if 0 < (normalizeItem item pv sqft).cost_medium then
             max 0 (pyRoundTo 2
               (100 * ((normalizeItem item pv sqft).after_repair_value - pv
                  - (normalizeItem item pv sqft).cost_medium)
                 / ((normalizeItem item pv sqft).cost_medium : ℚ)))
           else 0) := by
  have hmax : intMax 0 pv = pv := by rw [intMax, if_pos hpv]
  refine ⟨?_, ?_⟩ <;> simp only [normalizeItem, hmax]
  · rw [qAdd_eq]
  · cases hroi : pyFloat item.roi with
    | some r => rfl
    | none =>
        by_cases hc :
          0 < safe_parse_int (bandsOr item.estimated_cost item.estimatedCost).medium
        · rw [if_pos hc, if_pos hc, qMax_eq, qMul_eq, qDiv_eq, qSub_eq, qAdd_eq]
          ring_nf
        · rw [if_neg hc, if_neg hc]

/-- Witness for C2's amended theorem at the counterexample item. -/
theorem normalize_item_amended_witness :
    (normalizeItem roiCexItem 500000 Option.none).after_repair_value =
      (500000 : ℚ) + ((normalizeItem roiCexItem 500000 Option.none).value_medium : ℚ) := by
  exact (normalize_item_amended roiCexItem 500000 Option.none (by decide)).1

/-- C3 counterexample: on a property with no pricing signal at all, the
financial stage returns `[]` - the nonempty input idea list is *discarded*,
not carried forward in the stage's output, and no explicit indeterminate
marker is attached. -/
theorem financial_indeterminate_cex :
    determinePropertyValue 0 {} [] = 0 ∧
    financialProcess 0 {} [] [{}] [{}] = [] := by
  exact ⟨by decide, by decide⟩

/-- C3 as amended: whenever the waterfall yields no positive value, the
financial stage's `process` returns the empty list without raising,
regardless of the input ideas or of anything the LLM would answer; the
ideas are dropped from its output rather than carried forward unpriced. -/
theorem financial_indeterminate_amended (now : ℚ) (p : PropertyDetails)
    (comps : List Comp) (ideas llmItems : List RawItem)
    (h : determinePropertyValue now p comps ≤ 0) :
    financialProcess now p comps ideas llmItems = [] := by
  unfold financialProcess
  rw [if_pos h]

/-- Witness for C3's amended theorem on the signal-free property. -/
theorem financial_indeterminate_amended_witness :
    financialProcess 0 {} [] [{}] [{}] = [] := by
  exact financial_indeterminate_amended 0 {} [] [{}] [{}] (by decide)

/-- The zero-ideas text-agent result for C4: the idea list key is present
and empty, alongside the error message the agent attaches. -/
def zeroIdeasResult : IdeasDict :=
  { renovation_ideas := some []
    error := some "LLM did not return valid JSON or markdown JSON." }

/-- C4 counterexample: a job whose idea-generation stage returns zero
renovation ideas does *not* terminate: with images and an address present
the background run still invokes the image and market agents and finishes
with a `completed` write, never a `failed` one. -/
theorem zero_ideas_pipeline_cex :
    (reportServiceBackgroundRun { images := ["img1"], address := "1 Main St" }
        (Except.ok zeroIdeasResult) (Except.ok {}) (Except.ok {})).statusWrites =
      ["processing", "processing", "processing", "processing", "completed"] ∧
    "image_agent" ∈
      (reportServiceBackgroundRun { images := ["img1"], address := "1 Main St" }
        (Except.ok zeroIdeasResult) (Except.ok {}) (Except.ok {})).stagesCalled ∧
    "market_agent" ∈
      (reportServiceBackgroundRun { images := ["img1"], address := "1 Main St" }
        (Except.ok zeroIdeasResult) (Except.ok {}) (Except.ok {})).stagesCalled ∧
    "failed" ∉
      (reportServiceBackgroundRun { images := ["img1"], address := "1 Main St" }
        (Except.ok zeroIdeasResult) (Except.ok {}) (Except.ok {})).statusWrites := by
  exact ⟨by decide, by decide, by decide, by decide⟩

/-- C4 as amended: a zero-idea first stage does not end the pipeline: the
remaining stages are still attempted exactly according to the image/address
conditions, and when they return normally the job's final status write is
`completed`, not `failed`. -/
theorem zero_ideas_pipeline_amended (prop : PropertySnapshot)
    (d di dm : IdeasDict) (_h : d.renovation_ideas = some []) :
    (reportServiceBackgroundRun prop (Except.ok d) (Except.ok di)
        (Except.ok dm)).statusWrites =
      ["processing", "processing", "processing", "processing", "completed"] ∧
    (reportServiceBackgroundRun prop (Except.ok d) (Except.ok di)
        (Except.ok dm)).stagesCalled =
      ["text_agent"] ++ (if prop.images ≠ [] then ["image_agent"] else [])
        ++ (if prop.address ≠ "" then ["market_agent"] else []) := by
  unfold reportServiceBackgroundRun
  by_cases hi : prop.images ≠ [] <;> by_cases ha : prop.address ≠ "" <;>
    simp [hi, ha]

/-- Witness for C4's amended theorem at the counterexample job. -/
theorem zero_ideas_pipeline_amended_witness :
    (reportServiceBackgroundRun { images := ["img1"], address := "1 Main St" }
        (Except.ok zeroIdeasResult) (Except.ok {}) (Except.ok {})).statusWrites =
      ["processing", "processing", "processing", "processing", "completed"] := by
  exact (zero_ideas_pipeline_amended { images := ["img1"], address := "1 Main St" }
    zeroIdeasResult {} {} (by decide)).1

/-- C5: on the Flask path every background run raises at setup - the first
statement of the `try`, `OrchestratorAgent()` (app.py line 183), omits the
constructor's required `api_key`, so a `TypeError` escapes inside the `try`
before any stage can run, and a stage exception can therefore never go
uncaught.  The handler catches the exception at the outermost boundary and,
whatever the stages would have returned, stores a `failed` record that
preserves the original property snapshot and carries the message; the job's
status trace is `processing` then `failed` - it is never left at
`processing`. -/
theorem background_setup_failure (prop : PropertySnapshot)
    (textResult imageResult marketResult : Except String IdeasDict) :
    (runOrchestratorInBackground prop textResult imageResult marketResult
        (some orchestratorSetupFailure)).status = "failed" ∧
    (runOrchestratorInBackground prop textResult imageResult marketResult
        (some orchestratorSetupFailure)).property = some prop ∧
    (runOrchestratorInBackground prop textResult imageResult marketResult
        (some orchestratorSetupFailure)).error = some orchestratorSetupFailure ∧
    appJobStatusTrace prop textResult imageResult marketResult
        (some orchestratorSetupFailure) = ["processing", "failed"] ∧
    statusTerminal
      (runOrchestratorInBackground prop textResult imageResult marketResult
        (some orchestratorSetupFailure)).status = true := by
  exact ⟨rfl, rfl, rfl, rfl, rfl⟩

/-- C9: for every job, along both store pipelines (the Flask/Redis path:
`analyze_property` plus `run_orchestrator_in_background`; and the
FastAPI/ReportService path with its `update_report` progress writes), the
sequence of status values written is monotonic: it starts at `processing`,
only ever moves to `complete`/`completed` or `failed`, and no write after a
terminal write changes it. -/
theorem job_status_monotonic (prop : PropertySnapshot)
    (textResult imageResult marketResult : Except String IdeasDict)
    (outerExc : Option String) :
    monotonicStatuses
      (appJobStatusTrace prop textResult imageResult marketResult outerExc) = true ∧
    monotonicStatuses
      (serviceJobStatusTrace prop textResult imageResult marketResult) = true := by
  obtain ⟨images, address⟩ := prop
  obtain ⟨addrData⟩ := address
  constructor
  · rcases outerExc with _ | e
    · rcases textResult with e₁ | initial
      · rfl
      · rcases images with _ | ⟨img, imgs⟩ <;>
          rcases addrData with _ | ⟨c, cs⟩ <;>
          rcases imageResult with e₂ | di <;>
          rcases marketResult with e₃ | dm <;> rfl
    · rfl
  · rcases textResult with e₁ | initial
    · rfl
    · rcases images with _ | ⟨img, imgs⟩ <;>
        rcases addrData with _ | ⟨c, cs⟩ <;>
        rcases imageResult with e₂ | di <;>
        rcases marketResult with e₃ | dm <;> rfl

/-- C8: the extractors on all-attempts-fail inputs.  `TextAnalysisAgent`'s
parse path returns its typed error dict carrying the (truncated) response
text and never raises.  `_extract_json_list`, however, only returns `[]`
when *no* candidate span is found; when a candidate such as `"[a]"` is found
and both `json.loads` attempts fail, the second attempt sits outside any
`try`, so the `JSONDecodeError` escapes the extractor - contradicting the
claim and the function's own docstring `"Always returns a list."`. -/
theorem extractor_failure_eval :
    extractJsonList "[a]" = Except.error "[a]" ∧
    extractJsonList "" = Except.ok [] ∧
    extractJsonList "no structured output here" = Except.ok [] ∧
    textAgentProcess "\x7bbad\x7d" = TextOutcome.failure "\x7bbad\x7d" ∧
    textAgentProcess "no json at all" = TextOutcome.failure "no json at all" := by
  exact ⟨rfl, rfl, rfl, rfl, rfl⟩

/-- C10: the numeric-cleanup pass of the text agent deletes the comma of
`[1,200]` because it stands between a digit and three digits, so the
JSON array separator vanishes: a plain parse reads `[1, 200]`, while the
agent's parse path reads `[1200]` out of the same response - a different
value. -/
theorem clean_json_separator_damage :
    cleanJsonString "[1,200]" = "[1200]" ∧
    cleanJsonString "1,2345" = "12345" ∧
    cleanJsonString "1,20" = "1,20" ∧
    jsonLoads "[1,200]" = some (JVal.arr [JVal.num 1, JVal.num 200]) ∧
    jsonLoads "[1200]" = some (JVal.arr [JVal.num 1200]) ∧
    jsonLoads "\x7b\"a\": [1,200]\x7d" =
      some (JVal.obj [("a", JVal.arr [JVal.num 1, JVal.num 200])]) ∧
    textAgentProcess "\x7b\"a\": [1,200]\x7d" =
      TextOutcome.parsed (JVal.obj
        [("a", JVal.arr [JVal.num 1200]),
          ("renovation_ideas", JVal.arr []), ("error", JVal.null)]) ∧
    JVal.arr [JVal.num 1, JVal.num 200] ≠ JVal.arr [JVal.num 1200] := by
  refine ⟨rfl, rfl, rfl, rfl, rfl, rfl, rfl, ?_⟩
  intro h
  injection h with h₁
  injection h₁ with h₂ h₃
  exact List.noConfusion h₃

end Renvo
